import Mathlib

/-!
# python-btcmarkets: a shallow embedding of the authenticated REST client

This file embeds the core of `rest_interface.py` (the converged iteration of
the client) in Lean 4 and settles the specification's claims against it.

* Bytes are `Nat` values below 256; byte strings are `List Nat`.
* SHA-512, HMAC-SHA512 and base64 are spelled out in full, since the signature
  pipeline (`RESTInterface.request`, lines 44-59 of the source) is the core of
  the program.  The SHA-512 round constants are derived, as in the standard,
  from the fractional parts of the square and cube roots of the first primes.
* `base64.b64decode` is modelled after CPython's `binascii.a2b_base64` in its
  default non-strict mode: characters outside the alphabet are silently
  discarded, a completed pad sequence terminates decoding, and a leftover
  partial group raises.
* The wall clock, the HTTP transport and the exchange server are external
  collaborators; they enter as explicit parameters.
-/

namespace BtcMarkets

/-- `2 ^ 64`, the modulus for 64-bit words. -/
def w64 : Nat := 2 ^ 64

/-- Right rotation of a 64-bit word. -/
def rotr64 (x n : Nat) : Nat := ((x >>> n) ||| (x <<< (64 - n))) % w64

/-- Bitwise complement within 64 bits. -/
def not64 (x : Nat) : Nat := x ^^^ (w64 - 1)

/-- SHA-512 message-schedule function σ₀. -/
def ssig0 (x : Nat) : Nat := rotr64 x 1 ^^^ rotr64 x 8 ^^^ (x >>> 7)

/-- SHA-512 message-schedule function σ₁. -/
def ssig1 (x : Nat) : Nat := rotr64 x 19 ^^^ rotr64 x 61 ^^^ (x >>> 6)

/-- SHA-512 round function Σ₀. -/
def bsig0 (x : Nat) : Nat := rotr64 x 28 ^^^ rotr64 x 34 ^^^ rotr64 x 39

/-- SHA-512 round function Σ₁. -/
def bsig1 (x : Nat) : Nat := rotr64 x 14 ^^^ rotr64 x 18 ^^^ rotr64 x 41

/-- SHA-512 choice function. -/
def ch64 (x y z : Nat) : Nat := (x &&& y) ^^^ (not64 x &&& z)

/-- SHA-512 majority function. -/
def maj64 (x y z : Nat) : Nat := (x &&& y) ^^^ (x &&& z) ^^^ (y &&& z)

/-- Trial-division primality test, used only to enumerate the primes whose
roots give the SHA-512 constants. -/
def isPrimeNat (n : Nat) : Bool :=
  decide (2 ≤ n) && (((List.range n).drop 2).all fun d => n % d != 0)

/-- The first `k` prime numbers (the 80th prime, 409, is well below 500). -/
def firstPrimes (k : Nat) : List Nat :=
  ((List.range 500).filter isPrimeNat).take k

/-- Bisection step for the integer cube root. -/
def icbrtAux : Nat → Nat → Nat → Nat → Nat
  | 0, _, lo, _ => lo
  | fuel + 1, n, lo, hi =>
    let mid := (lo + hi) / 2
    if mid = lo then lo
    else if mid ^ 3 ≤ n then icbrtAux fuel n mid hi
    else icbrtAux fuel n lo mid

/-- Integer cube root by bisection. -/
def icbrt (n : Nat) : Nat := icbrtAux 300 n 0 (n + 2)

/-- SHA-512 initial hash value: the first 64 bits of the fractional parts of
the square roots of the first 8 primes. -/
def sha512H0 : List Nat :=
  (firstPrimes 8).map fun p => Nat.sqrt (p * 2 ^ 128) % w64

/-- SHA-512 round constants: the first 64 bits of the fractional parts of the
cube roots of the first 80 primes. -/
def sha512K : List Nat :=
  (firstPrimes 80).map fun p => icbrt (p * 2 ^ 192) % w64

/-- Big-endian byte rendering of `n` into exactly `k` bytes. -/
def toBytesBE (k n : Nat) : List Nat :=
  (List.range k).map fun i => (n >>> (8 * (k - 1 - i))) % 256

/-- Big-endian interpretation of a byte list as one number. -/
def fromBytesBE (bs : List Nat) : Nat := bs.foldl (fun a b => a * 256 + b) 0

/-- Split a list into chunks of `k` elements (the final chunk may be short). -/
def chunksAux (k : Nat) : Nat → List Nat → List (List Nat)
  | 0, _ => []
  | _, [] => []
  | fuel + 1, xs => xs.take k :: chunksAux k fuel (xs.drop k)

/-- Split a byte list into chunks of `k` bytes. -/
def chunks (k : Nat) (xs : List Nat) : List (List Nat) :=
  chunksAux k xs.length xs

/-- SHA-512 padding: append `0x80`, zeros, and the 16-byte big-endian bit
length, reaching a multiple of 128 bytes. -/
def sha512pad (msg : List Nat) : List Nat :=
  let L := msg.length
  let zeros := (128 - (L + 17) % 128) % 128
  msg ++ [0x80] ++ List.replicate zeros 0 ++ toBytesBE 16 (8 * L)

/-- The eight-word SHA-512 working state. -/
structure Sha512State where
  a : Nat
  b : Nat
  c : Nat
  d : Nat
  e : Nat
  f : Nat
  g : Nat
  h : Nat
deriving DecidableEq, Repr

/-- Extend a 16-word block schedule out to 80 words. -/
def sha512ExtendW : Nat → List Nat → List Nat
  | 0, w => w
  | fuel + 1, w =>
    let n := w.length
    let x := (ssig1 (w.getD (n - 2) 0) + w.getD (n - 7) 0 +
              ssig0 (w.getD (n - 15) 0) + w.getD (n - 16) 0) % w64
    sha512ExtendW fuel (w ++ [x])

/-- One SHA-512 round with constant `k` and schedule word `w`. -/
def sha512Round (st : Sha512State) (k w : Nat) : Sha512State :=
  let t1 := (st.h + bsig1 st.e + ch64 st.e st.f st.g + k + w) % w64
  let t2 := (bsig0 st.a + maj64 st.a st.b st.c) % w64
  ⟨(t1 + t2) % w64, st.a, st.b, st.c, (st.d + t1) % w64, st.e, st.f, st.g⟩

/-- Compress one 128-byte block into the running state. -/
def sha512Compress (st : Sha512State) (block : List Nat) : Sha512State :=
  let w0 := (chunks 8 block).map fromBytesBE
  let w := sha512ExtendW 64 w0
  let fin := (sha512K.zip w).foldl (fun s kw => sha512Round s kw.1 kw.2) st
  ⟨(st.a + fin.a) % w64, (st.b + fin.b) % w64, (st.c + fin.c) % w64,
   (st.d + fin.d) % w64, (st.e + fin.e) % w64, (st.f + fin.f) % w64,
   (st.g + fin.g) % w64, (st.h + fin.h) % w64⟩

/-- Initial SHA-512 state, from `sha512H0`. -/
def sha512Init : Sha512State :=
  ⟨sha512H0.getD 0 0, sha512H0.getD 1 0, sha512H0.getD 2 0, sha512H0.getD 3 0,
   sha512H0.getD 4 0, sha512H0.getD 5 0, sha512H0.getD 6 0, sha512H0.getD 7 0⟩

/-- SHA-512 of a byte list, as the 64-byte digest. -/
def sha512 (msg : List Nat) : List Nat :=
  let fin := (chunks 128 (sha512pad msg)).foldl sha512Compress sha512Init
  ([fin.a, fin.b, fin.c, fin.d, fin.e, fin.f, fin.g, fin.h].map (toBytesBE 8)).flatten

/-- HMAC key normalisation: hash keys longer than the 128-byte block, then
zero-pad to the block size; this is `hmac.new`'s key handling. -/
def hmacNormKey (key : List Nat) : List Nat :=
  let k0 := if 128 < key.length then sha512 key else key
  k0 ++ List.replicate (128 - k0.length) 0

/-- HMAC-SHA512 as computed by Python's `hmac.new(secret, payload,
digestmod=hashlib.sha512).digest()`. -/
def hmacSha512 (key msg : List Nat) : List Nat :=
  let kp := hmacNormKey key
  let ipad := kp.map fun b => b ^^^ 0x36
  let opad := kp.map fun b => b ^^^ 0x5c
  sha512 (opad ++ sha512 (ipad ++ msg))

/-- The standard base64 alphabet. -/
def b64alphabet : List Char :=
  "ABCDEFGHIJKLMNOPQRSTUVWXYZabcdefghijklmnopqrstuvwxyz0123456789+/".toList

/-- The character the base64 alphabet assigns to a 6-bit value. -/
def b64char (n : Nat) : Char := b64alphabet.getD n '?'

/-- Encode bytes three at a time, padding the final group with `=`. -/
def b64encodeAux : Nat → List Nat → List Char
  | 0, _ => []
  | _, [] => []
  | _ + 1, [x] =>
    [b64char (x >>> 2), b64char ((x % 4) <<< 4), '=', '=']
  | _ + 1, [x, y] =>
    [b64char (x >>> 2), b64char (((x % 4) <<< 4) ||| (y >>> 4)),
     b64char ((y % 16) <<< 2), '=']
  | fuel + 1, x :: y :: z :: rest =>
    b64char (x >>> 2) :: b64char (((x % 4) <<< 4) ||| (y >>> 4)) ::
    b64char (((y % 16) <<< 2) ||| (z >>> 6)) :: b64char (z % 64) ::
    b64encodeAux fuel rest

/-- `base64.b64encode`, returned as a string. -/
def b64encode (bs : List Nat) : String := String.mk (b64encodeAux bs.length bs)

/-- Position of a character in the base64 alphabet, if any. -/
def b64index : List Char → Char → Option Nat
  | [], _ => none
  | a :: rest, c => if a == c then some 0 else (b64index rest c).map (· + 1)

/-- CPython's `binascii.a2b_base64` in non-strict mode (the behaviour of
`base64.b64decode` with `validate=False`, the source's call): characters
outside the alphabet are skipped; a pad sequence completing a quad ends
decoding successfully and the remainder is ignored; a pad earlier in a quad is
skipped; at end of input a leftover quad position is an error.  State:
remaining input, quad position, the held partial bits, the running pad count,
and the accumulated output (reversed). -/
def a2bBase64 : List Char → Nat → Nat → Nat → List Nat → Except String (List Nat)
  | [], quadPos, _, _, acc =>
    if quadPos == 0 then .ok acc.reverse
    else if quadPos == 1 then
      .error "Invalid base64-encoded string: number of data characters cannot be 1 more than a multiple of 4"
    else .error "Incorrect padding"
  | c :: rest, quadPos, leftchar, pads, acc =>
    if c == '=' then
      if 2 ≤ quadPos then
        if 4 ≤ quadPos + (pads + 1) then .ok acc.reverse
        else a2bBase64 rest quadPos leftchar (pads + 1) acc
      else a2bBase64 rest quadPos leftchar pads acc
    else
      match b64index b64alphabet c with
      | none => a2bBase64 rest quadPos leftchar pads acc
      | some v =>
        match quadPos with
        | 0 => a2bBase64 rest 1 v 0 acc
        | 1 => a2bBase64 rest 2 (v % 16) 0 (((leftchar <<< 2) ||| (v >>> 4)) :: acc)
        | 2 => a2bBase64 rest 3 (v % 4) 0 (((leftchar <<< 4) ||| (v >>> 2)) :: acc)
        | _ => a2bBase64 rest 0 0 0 (((leftchar <<< 6) ||| v) :: acc)

/-- `base64.b64decode` on a string argument: the string must be pure ASCII,
and is then decoded by the non-strict `a2b_base64`. -/
def b64decode (s : String) : Except String (List Nat) :=
  if s.toList.all (fun c => c.toNat < 128) then a2bBase64 s.toList 0 0 0 []
  else .error "string argument should contain only ASCII characters"

/-- UTF-8 encoding of one character. -/
def utf8Char (c : Char) : List Nat :=
  let n := c.toNat
  if n < 0x80 then [n]
  else if n < 0x800 then [0xc0 ||| (n >>> 6), 0x80 ||| (n % 64)]
  else if n < 0x10000 then
    [0xe0 ||| (n >>> 12), 0x80 ||| ((n >>> 6) % 64), 0x80 ||| (n % 64)]
  else
    [0xf0 ||| (n >>> 18), 0x80 ||| ((n >>> 12) % 64),
     0x80 ||| ((n >>> 6) % 64), 0x80 ||| (n % 64)]

/-- `str.encode("utf-8")`: the UTF-8 bytes of a string. -/
def utf8Bytes (s : String) : List Nat := (s.toList.map utf8Char).flatten

/-- Modelled from the spec: `config.api_url`, the base API URL loaded by the
configuration module, which is not under `src/`; §6 only requires the request
URL to be the base API URL followed by the path. -/
def api_url : String := "https://api.btcmarkets.net"

/-- The client state after `RESTInterface.__init__`: the public key and the
base64-decoded secret (source lines 30-36). -/
structure RESTInterface where
  key : String
  secret : List Nat
deriving DecidableEq, Repr

/-- `RESTInterface.__init__(public_key, private_key)`: stores the public key
and decodes the private key with `base64.b64decode`; a decode exception
propagates out of the constructor. -/
def RESTInterface.init (public_key private_key : String) :
    Except String RESTInterface :=
  match b64decode private_key with
  | .error e => .error e
  | .ok secret => .ok { key := public_key, secret := secret }

/-- The headers built by `request` (source lines 52-59); the three fixed
content-negotiation headers are omitted as constants. -/
structure Headers where
  apikey : String
  timestamp : Nat
  signature : String
deriving DecidableEq, Repr

/-- Everything `request` (source lines 38-61) computes before handing the
request to the transport: the canonical payload, its UTF-8 bytes, the
signature, the headers, the URL, and the body bytes (`none` means GET). -/
structure SignedRequest where
  payload : String
  payloadBytes : List Nat
  signature : String
  headers : Headers
  url : String
  body : Option (List Nat)
deriving DecidableEq, Repr

/-- `RESTInterface.request(path, data)` (source lines 38-61), with the single
`int(time.time() * 1000)` call passed in as `timestamp`:
`payload = f"{path}\n{timestamp}\n"`, the body appended when present, UTF-8
encoded, signed with HMAC-SHA512 under the stored secret, base64-encoded, and
the same `timestamp` placed in the headers. -/
def RESTInterface.request (iface : RESTInterface) (path : String)
    (data : Option String) (timestamp : Nat) : SignedRequest :=
  let payload0 := path ++ "\n" ++ toString timestamp ++ "\n"
  let payload := match data with
    | some d => payload0 ++ d
    | none => payload0
  let payloadBytes := utf8Bytes payload
  let signature := b64encode (hmacSha512 iface.secret payloadBytes)
  { payload := payload
    payloadBytes := payloadBytes
    signature := signature
    headers := { apikey := iface.key, timestamp := timestamp, signature := signature }
    url := api_url ++ path
    body := data.map utf8Bytes }

/-- What `urllib.request.urlopen` hands back for one issued request: a 2xx
response body, or the `HTTPError` it raises on a non-2xx status. -/
inductive HttpResult where
  | ok (responseBody : String)
  | httpError (code : Nat)
deriving DecidableEq, Repr

/-- `request` through the transport.  The transport is indexed by attempt
number so that retrying is expressible; the source calls `urlopen` exactly
once per `request` call (line 62), with no retry logic anywhere, so only
attempt 0 is ever consulted, and an `HTTPError` propagates to the caller
unchanged whatever the operation was. -/
def RESTInterface.requestSend (iface : RESTInterface) (path : String)
    (data : Option String) (timestamp : Nat) (transport : Nat → HttpResult) :
    Except Nat String :=
  let _ := iface.request path data timestamp
  match transport 0 with
  | .ok responseBody => .ok responseBody
  | .httpError code => .error code

/-- One entry of the `/account/balance` response (source lines 64-70). -/
structure BalanceEntry where
  balance : Int
  pendingFunds : Int
  currency : String
deriving DecidableEq, Repr

/-- `RESTInterface.balances()` issues a GET of `/account/balance`. -/
def RESTInterface.balancesRequest (iface : RESTInterface) (timestamp : Nat) :
    SignedRequest :=
  iface.request "/account/balance" none timestamp

/-- `RESTInterface.balances()` through the transport (used for the retry
claims; the response JSON itself is server data). -/
def RESTInterface.balancesSend (iface : RESTInterface) (timestamp : Nat)
    (transport : Nat → HttpResult) : Except Nat String :=
  iface.requestSend "/account/balance" none timestamp transport

/-- `RESTInterface.balance(currency)` (source lines 72-80), applied to the
decoded `balances()` response: the comprehension
`[b['balance'] for b in self.balances() if b['currency'] == currency]`,
then `0` when empty, else element `[0]`. -/
def RESTInterface.balance (resp : List BalanceEntry) (currency : String) : Int :=
  let balance := (resp.filter fun b => b.currency == currency).map fun b => b.balance
  match balance with
  | [] => 0
  | b :: _ => b

/-- The body built by `create_order` (source lines 146-148): direct f-string
interpolation of the six parameters into a fixed JSON-shaped template. -/
def create_order_data (instrument currency : String) (price volume : Int)
    (order_side order_type : String) : String :=
  "\x7b\"currency\":\"" ++ currency ++ "\",\"instrument\":\"" ++ instrument ++
  "\",\"price\":" ++ toString price ++ ",\"volume\":" ++ toString volume ++
  ",\"orderSide\":\"" ++ order_side ++ "\",\"ordertype\":\"" ++ order_type ++
  "\",\"clientRequestId\":\"NA\"\x7d"

/-- `RESTInterface.create_order(...)` (source lines 127-149): builds the body
and POSTs it to `/order/create`. -/
def RESTInterface.create_order (iface : RESTInterface)
    (instrument currency : String) (price volume : Int)
    (order_side order_type : String) (timestamp : Nat) : SignedRequest :=
  iface.request "/order/create"
    (some (create_order_data instrument currency price volume order_side order_type))
    timestamp

/-- Python's `str` on a list of ints, as interpolated by the f-strings in
`cancel_order` and `order_detail`: `[a, b, c]` with `", "` separators. -/
def pyIntListStr (xs : List Int) : String :=
  "[" ++ String.intercalate ", " (xs.map toString) ++ "]"

/-- The body built by `cancel_order` (source line 176). -/
def cancel_order_data (order_ids : List Int) : String :=
  "\x7b\"orderIds\":" ++ pyIntListStr order_ids ++ "\x7d"

/-- `RESTInterface.cancel_order(order_ids)` (source lines 167-177): builds the
body and POSTs it to `/order/cancel`. -/
def RESTInterface.cancel_order (iface : RESTInterface) (order_ids : List Int)
    (timestamp : Nat) : SignedRequest :=
  iface.request "/order/cancel" (some (cancel_order_data order_ids)) timestamp

/-- The body built by `withdraw_crypto` (source line 204). -/
def withdraw_crypto_data (amount : Int) (address currency : String) : String :=
  "\x7b\"amount\":" ++ toString amount ++ ",\"address\":\"" ++ address ++
  "\",\"currency\":\"" ++ currency ++ "\"\x7d"

/-- `RESTInterface.withdraw_crypto(...)` (source lines 203-205) through the
transport. -/
def RESTInterface.withdraw_cryptoSend (iface : RESTInterface) (amount : Int)
    (address currency : String) (timestamp : Nat)
    (transport : Nat → HttpResult) : Except Nat String :=
  iface.requestSend "/fundtransfer/withdrawCrypto"
    (some (withdraw_crypto_data amount address currency)) timestamp transport

/-- One per-id entry of the cancel response (source lines 171-174). -/
structure CancelItemResult where
  success : Bool
  errorCode : Option Int
  errorMessage : Option String
  id : Int
deriving DecidableEq, Repr

/-- The `/order/cancel` response shape (source lines 171-174). -/
structure CancelResult where
  success : Bool
  errorCode : Option Int
  errorMessage : Option String
  responses : List CancelItemResult
deriving DecidableEq, Repr

/-- Modelled from the spec: the exchange's `/order/cancel` endpoint, which is
not part of this repository.  Per §3 a cancel request "Maps to a per-id result
list", so the `responses` field carries one entry per requested order id, in
order. -/
def cancelEndpoint (order_ids : List Int) : CancelResult :=
  { success := true
    errorCode := none
    errorMessage := none
    responses := order_ids.map fun i =>
      { success := true, errorCode := none, errorMessage := none, id := i } }

/-- The Signer of §4.1 of the spec, in the spec's words: the canonical message
is `path + "\n" + timestampMillis + "\n" + body`, with the body term omitted
from that formula when absent (and nothing substituted in its place, so the
absent case coincides with the `<jsonBodyOrEmpty>` format of §6). -/
def spec_canonicalMessage (path : String) (timestampMillis : Nat)
    (body : Option String) : String :=
  match body with
  | some b => path ++ "\n" ++ toString timestampMillis ++ "\n" ++ b
  | none => path ++ "\n" ++ toString timestampMillis ++ "\n"

/-- The Signer's output in the spec's words: HMAC-SHA512 over the UTF-8 bytes
of the canonical message, keyed by the (already base64-decoded) secret, the
digest base64-encoded. -/
def spec_signature (secret : List Nat) (path : String) (timestampMillis : Nat)
    (body : Option String) : String :=
  b64encode (hmacSha512 secret (utf8Bytes (spec_canonicalMessage path timestampMillis body)))

/-! ## A JSON (RFC 8259) validity check

Used to settle the claim that `create_order`'s interpolated body need not be
valid JSON.  The recogniser below is *permissive*: wherever convenience and
strictness conflict (trailing commas, unpaired surrogates) it accepts, so it
recognises a superset of RFC 8259 texts; `jsonValid s = false` therefore
soundly implies that `s` is not valid JSON. -/

/-- Drop leading JSON whitespace. -/
def jsonWs : List Char → List Char
  | c :: rest =>
    if c == ' ' || c == '\t' || c == '\n' || c == '\r' then jsonWs rest
    else c :: rest
  | [] => []

/-- Hexadecimal digit test for `\uXXXX` escapes. -/
def isHexDigit (c : Char) : Bool :=
  c.isDigit || ('a' ≤ c && c ≤ 'f') || ('A' ≤ c && c ≤ 'F')

/-- Recognise the remainder of a JSON string literal, after the opening
quote; returns the input after the closing quote. -/
def jsonStringRest : List Char → Option (List Char)
  | [] => none
  | c :: rest =>
    if c == '"' then some rest
    else if c == '\\' then
      match rest with
      | [] => none
      | e :: rest2 =>
        if e == '"' || e == '\\' || e == '/' || e == 'b' || e == 'f' ||
           e == 'n' || e == 'r' || e == 't' then jsonStringRest rest2
        else if e == 'u' then
          match rest2 with
          | h1 :: h2 :: h3 :: h4 :: rest3 =>
            if isHexDigit h1 && isHexDigit h2 && isHexDigit h3 && isHexDigit h4
            then jsonStringRest rest3 else none
          | _ => none
        else none
    else if c.toNat < 0x20 then none
    else jsonStringRest rest

/-- Drop a run of decimal digits. -/
def dropDigits : List Char → List Char
  | c :: rest => if c.isDigit then dropDigits rest else c :: rest
  | [] => []

/-- Recognise an optional JSON fraction part. -/
def jsonFrac : List Char → Option (List Char)
  | '.' :: rest =>
    match rest with
    | c :: rest2 => if c.isDigit then some (dropDigits rest2) else none
    | [] => none
  | cs => some cs

/-- Recognise an optional JSON exponent part. -/
def jsonExp : List Char → Option (List Char)
  | c :: rest =>
    if c == 'e' || c == 'E' then
      let rest2 := match rest with
        | s :: rest3 => if s == '+' || s == '-' then rest3 else s :: rest3
        | [] => []
      match rest2 with
      | d :: rest4 => if d.isDigit then some (dropDigits rest4) else none
      | [] => none
    else some (c :: rest)
  | [] => some []

/-- Recognise a JSON number (permissively allowing leading zeros). -/
def jsonNumberRest (cs : List Char) : Option (List Char) :=
  let cs1 := match cs with
    | '-' :: rest => rest
    | _ => cs
  match cs1 with
  | c :: rest => if c.isDigit then (jsonFrac (dropDigits rest)).bind jsonExp else none
  | [] => none

mutual

/-- Recognise one JSON value; `fuel` bounds the nesting depth. -/
def jsonValue : Nat → List Char → Option (List Char)
  | 0, _ => none
  | fuel + 1, cs =>
    match cs with
    | '\x7b' :: rest => jsonObjectRest fuel (jsonWs rest)
    | '[' :: rest => jsonArrayRest fuel (jsonWs rest)
    | '"' :: rest => jsonStringRest rest
    | 't' :: 'r' :: 'u' :: 'e' :: rest => some rest
    | 'f' :: 'a' :: 'l' :: 's' :: 'e' :: rest => some rest
    | 'n' :: 'u' :: 'l' :: 'l' :: rest => some rest
    | _ => jsonNumberRest cs

/-- Recognise the members of an object after its opening brace. -/
def jsonObjectRest : Nat → List Char → Option (List Char)
  | 0, _ => none
  | fuel + 1, cs =>
    match cs with
    | '\x7d' :: rest => some rest
    | '"' :: rest =>
      match jsonStringRest rest with
      | none => none
      | some r2 =>
        match jsonWs r2 with
        | ':' :: r3 =>
          match jsonValue fuel (jsonWs r3) with
          | none => none
          | some r4 =>
            match jsonWs r4 with
            | ',' :: r5 => jsonObjectRest fuel (jsonWs r5)
            | '\x7d' :: r5 => some r5
            | _ => none
        | _ => none
    | _ => none

/-- Recognise the elements of an array after its opening bracket. -/
def jsonArrayRest : Nat → List Char → Option (List Char)
  | 0, _ => none
  | fuel + 1, cs =>
    match cs with
    | ']' :: rest => some rest
    | _ =>
      match jsonValue fuel cs with
      | none => none
      | some r2 =>
        match jsonWs r2 with
        | ',' :: r3 => jsonArrayRest fuel (jsonWs r3)
        | ']' :: r3 => some r3
        | _ => none

end

/-- Whether a string is a (permissively recognised) JSON text. -/
def jsonValid (s : String) : Bool :=
  match jsonValue (s.length + 1) (jsonWs s.toList) with
  | some rest => jsonWs rest == []
  | none => false

/-- Membership in the base64 alphabet. -/
def isB64Char (c : Char) : Bool := b64alphabet.contains c

/-- Valid base64 in the standard sense (RFC 4648 §4, the spec's "valid
base64"): complete four-character groups over the alphabet, with `=` padding
only closing the final group. -/
def validBase64Groups : List Char → Bool
  | [] => true
  | [a, b, '=', '='] => isB64Char a && isB64Char b
  | [a, b, c, '='] => isB64Char a && isB64Char b && isB64Char c
  | a :: b :: c :: d :: rest =>
    isB64Char a && isB64Char b && isB64Char c && isB64Char d &&
    validBase64Groups rest
  | _ => false

/-- Whether a string is valid base64. -/
def validBase64 (s : String) : Bool := validBase64Groups s.toList

/-- A mock transport that answers HTTP 503 to every attempt. -/
def mock503 : Nat → HttpResult := fun _ => .httpError 503

/-- A mock transport that answers HTTP 503 to the first attempt and succeeds
on any retry; a client that retried reads would come back with the 200 body. -/
def mock503ThenOk : Nat → HttpResult :=
  fun attempt => if attempt == 0 then .httpError 503 else .ok "[]"

/-- `request` with the wall clock explicit: line 44 of the source reads the
clock exactly once (`timestamp = int(time.time() * 1000)`) and every later
use of the timestamp is that one value. -/
def RESTInterface.request_clocked (iface : RESTInterface) (path : String)
    (data : Option String) (clock : Nat → Nat) : SignedRequest :=
  let timestamp := clock 0
  iface.request path data timestamp

/-- The numeric value of a decimal digit string (to invert `Nat.repr`). -/
def decimalVal (cs : List Char) : Nat :=
  cs.foldl (fun a c => a * 10 + (c.toNat - 48)) 0

/-! ## Helper lemmas

Two strings with equal character data are equal; appending is cancellative;
and the decimal rendering used for the timestamp is injective. -/

theorem string_data_injective : ∀ {s t : String}, s.data = t.data → s = t := by
  intro s t h
  cases s
  cases t
  simp_all

theorem string_append_right_cancel {s1 s2 r : String} (h : s1 ++ r = s2 ++ r) :
    s1 = s2 :=
  string_data_injective (List.append_cancel_right (congrArg String.data h))

theorem string_append_left_cancel {r s1 s2 : String} (h : r ++ s1 = r ++ s2) :
    s1 = s2 :=
  string_data_injective (List.append_cancel_left (congrArg String.data h))

theorem decimalVal_append (xs : List Char) (c : Char) :
    decimalVal (xs ++ [c]) = decimalVal xs * 10 + (c.toNat - 48) := by
  simp [decimalVal, List.foldl_append]

theorem digitChar_toNat_sub (d : Nat) (h : d < 10) :
    (Nat.digitChar d).toNat - 48 = d := by
  interval_cases d <;> rfl

theorem toDigitsCore_append10 (f : Nat) :
    ∀ (n : Nat) (ds : List Char),
      Nat.toDigitsCore 10 f n ds = Nat.toDigitsCore 10 f n [] ++ ds := by
  induction f with
  | zero => intro n ds; simp [Nat.toDigitsCore]
  | succ f ih =>
    intro n ds
    simp only [Nat.toDigitsCore]
    if hx : n / 10 = 0 then
      simp [hx]
    else
      simp only [hx, if_false]
      rw [ih (n / 10) (Nat.digitChar (n % 10) :: ds),
          ih (n / 10) [Nat.digitChar (n % 10)], List.append_assoc]
      rfl

theorem decimalVal_toDigitsCore (f : Nat) :
    ∀ n, n < f → decimalVal (Nat.toDigitsCore 10 f n []) = n := by
  induction f with
  | zero => intro n h; omega
  | succ f ih =>
    intro n h
    simp only [Nat.toDigitsCore]
    if hx : n / 10 = 0 then
      have h10 : n < 10 := by omega
      simp only [hx, if_true]
      show decimalVal [Nat.digitChar (n % 10)] = n
      have hmod : n % 10 = n := Nat.mod_eq_of_lt h10
      simp [decimalVal, hmod, digitChar_toNat_sub n h10]
    else
      have hpos : 0 < n := by
        rcases Nat.eq_zero_or_pos n with h0 | h0
        · subst h0; simp at hx
        · exact h0
      have hdiv : n / 10 < n := Nat.div_lt_self hpos (by omega)
      simp only [hx, if_false]
      rw [toDigitsCore_append10, decimalVal_append,
          ih (n / 10) (by omega), digitChar_toNat_sub (n % 10) (Nat.mod_lt n (by omega))]
      omega

theorem toString_nat_injective : Function.Injective (toString : Nat → String) := by
  intro m n h
  have hdig : Nat.toDigitsCore 10 (m + 1) m [] = Nat.toDigitsCore 10 (n + 1) n [] :=
    congrArg String.data h
  have hm := decimalVal_toDigitsCore (m + 1) m (Nat.lt_succ_self m)
  have hn := decimalVal_toDigitsCore (n + 1) n (Nat.lt_succ_self n)
  rw [hdig, hn] at hm
  exact hm.symm

/-- HMAC-SHA512 zero-pads keys shorter than the 128-byte block, so the
one-byte secret `0x01` and the two-byte secret `0x01 0x00` normalise to the
same padded key. -/
theorem hmacNormKey_pad_collision : hmacNormKey [1] = hmacNormKey [1, 0] := by
  decide

/-! ## The claims -/

set_option maxRecDepth 100000

/-- C1: `create_order("BTC", "AUD", 5000000000, 50000000, "Bid", "Limit")`
produces exactly the claimed request body, and the signature of the request it
issues is computed over `"/order/create" ++ "\n" ++ timestamp ++ "\n" ++ body`
with the same timestamp value that is placed in the `timestamp` header. -/
theorem create_order_end_to_end (iface : RESTInterface) (ts : Nat) :
    create_order_data "BTC" "AUD" 5000000000 50000000 "Bid" "Limit" =
      "\x7b\"currency\":\"AUD\",\"instrument\":\"BTC\",\"price\":5000000000,\"volume\":50000000,\"orderSide\":\"Bid\",\"ordertype\":\"Limit\",\"clientRequestId\":\"NA\"\x7d"
    ∧ (iface.create_order "BTC" "AUD" 5000000000 50000000 "Bid" "Limit" ts).headers.timestamp = ts
    ∧ (iface.create_order "BTC" "AUD" 5000000000 50000000 "Bid" "Limit" ts).payload =
      "/order/create" ++ "\n" ++ toString ts ++ "\n" ++
        create_order_data "BTC" "AUD" 5000000000 50000000 "Bid" "Limit"
    ∧ (iface.create_order "BTC" "AUD" 5000000000 50000000 "Bid" "Limit" ts).signature =
      b64encode (hmacSha512 iface.secret (utf8Bytes ("/order/create" ++ "\n" ++ toString ts ++ "\n" ++
        create_order_data "BTC" "AUD" 5000000000 50000000 "Bid" "Limit"))) := by
  refine ⟨by decide, rfl, rfl, rfl⟩

/-- C2: the canonical message is `path ++ "\n" ++ timestamp ++ "\n" ++ body`
when a body is present and exactly `path ++ "\n" ++ timestamp ++ "\n"` when it
is absent (the body term omitted from the formula, nothing substituted for
it); the code's signature refines the spec-worded Signer: base64 of the
HMAC-SHA512 digest of the UTF-8 canonical message, keyed by the secret that
`__init__` obtained by base64-decoding the private key. -/
theorem request_signature_refines_spec (iface : RESTInterface) (path : String)
    (ts : Nat) :
    (∀ body, spec_canonicalMessage path ts (some body) =
      path ++ "\n" ++ toString ts ++ "\n" ++ body)
    ∧ spec_canonicalMessage path ts none = path ++ "\n" ++ toString ts ++ "\n"
    ∧ (∀ data, (iface.request path data ts).payload = spec_canonicalMessage path ts data)
    ∧ (∀ data, (iface.request path data ts).signature = spec_signature iface.secret path ts data)
    ∧ (∀ pub priv ifc, RESTInterface.init pub priv = .ok ifc →
        b64decode priv = .ok ifc.secret) := by
  refine ⟨fun body => rfl, rfl, fun data => ?_, fun data => ?_, ?_⟩
  · cases data <;> rfl
  · cases data <;> rfl
  · intro pub priv ifc h
    unfold RESTInterface.init at h
    cases hdec : b64decode priv with
    | error e => rw [hdec] at h; exact absurd h (by simp)
    | ok s => rw [hdec] at h; cases h; rfl

/-- C2 witness: the refinement at a concrete interface, path and timestamp,
and the decode hypothesis discharged at the key `"AQ=="`. -/
theorem request_signature_refines_spec_witness :
    (RESTInterface.request ⟨"k", [1]⟩ "/a" none 0).payload =
      spec_canonicalMessage "/a" 0 none
    ∧ b64decode "AQ==" = .ok (RESTInterface.mk "p" [1]).secret := by
  refine ⟨(request_signature_refines_spec ⟨"k", [1]⟩ "/a" 0).2.2.1 none, ?_⟩
  exact (request_signature_refines_spec ⟨"k", [1]⟩ "/a" 0).2.2.2.2 "p" "AQ=="
    ⟨"p", [1]⟩ rfl

/-- C3: `balance(currency)` over the decoded `balances()` response returns 0
when no entry carries the queried currency, and the balance of a matching
entry otherwise; it is a total function, so an unknown currency can never
raise. -/
theorem balance_absent_zero_present_match (resp : List BalanceEntry)
    (currency : String) :
    ((∀ b ∈ resp, b.currency ≠ currency) → RESTInterface.balance resp currency = 0)
    ∧ (∀ e ∈ resp, e.currency = currency →
        ∃ m, m ∈ resp ∧ m.currency = currency ∧
          RESTInterface.balance resp currency = m.balance) := by
  constructor
  · intro h
    have hf : resp.filter (fun b => b.currency == currency) = [] := by
      rw [List.filter_eq_nil_iff]
      intro a ha
      simpa using h a ha
    simp [RESTInterface.balance, hf]
  · intro e he hc
    have hmem : e ∈ resp.filter (fun b => b.currency == currency) :=
      List.mem_filter.mpr ⟨he, by simp [hc]⟩
    cases hf : resp.filter (fun b => b.currency == currency) with
    | nil => rw [hf] at hmem; exact absurd hmem (by simp)
    | cons m rest =>
      have hm : m ∈ resp.filter (fun b => b.currency == currency) := by
        rw [hf]; exact List.mem_cons_self m rest
      obtain ⟨hmr, hmc⟩ := List.mem_filter.mp hm
      exact ⟨m, hmr, by simpa using hmc, by simp [RESTInterface.balance, hf]⟩

/-- C3 witness: a response without the queried currency yields 0. -/
theorem balance_absent_zero_present_match_witness :
    RESTInterface.balance [⟨3, 0, "BTC"⟩] "AUD" = 0 :=
  (balance_absent_zero_present_match [⟨3, 0, "BTC"⟩] "AUD").1 (by decide)

/-- C4: `cancel_order([])` builds the literal body `{"orderIds":[]}` and a
well-formed signed request, and the cancel endpoint (modelled from the spec as
a per-id result list) answers it with an empty `responses` list and overall
success — a no-op, not an error. -/
theorem cancel_order_empty_noop (iface : RESTInterface) (ts : Nat) :
    cancel_order_data [] = "\x7b\"orderIds\":[]\x7d"
    ∧ (iface.cancel_order [] ts).payload =
        "/order/cancel" ++ "\n" ++ toString ts ++ "\n" ++ cancel_order_data []
    ∧ (cancelEndpoint []).responses = []
    ∧ (cancelEndpoint []).success = true := by
  exact ⟨by decide, rfl, rfl, rfl⟩

/-- C5 counterexample: under a mock transport whose first answer is HTTP 503,
a read (`balances`) fails with that 503 even when a retry would have
succeeded — the code consults only attempt 0, so reads are *not* retried —
and `withdraw_crypto` under the same 503 mock produces the *identical* error
value a read produces, not a distinct `AmbiguousFailureError` (no such kind
exists in the code). -/
theorem retry_503_counterexample :
    RESTInterface.balancesSend ⟨"k", [1]⟩ 0 mock503ThenOk = .error 503
    ∧ RESTInterface.withdraw_cryptoSend ⟨"k", [1]⟩ 1 "addr" "BTC" 0 mock503 =
        RESTInterface.balancesSend ⟨"k", [1]⟩ 0 mock503 := by
  exact ⟨rfl, rfl⟩

/-- C5 amended: every operation issues exactly one transport attempt — the
result depends only on the transport's answer to attempt 0, so nothing is
retried — and under a 503-returning transport a read and `withdraw_crypto`
surface the same propagated HTTP error; in particular `withdraw_crypto` is
never auto-retried, vacuously, as no retry mechanism exists at all. -/
theorem no_retry_uniform_503 (iface : RESTInterface) (path : String)
    (data : Option String) (ts : Nat) (t t2 : Nat → HttpResult)
    (h : t 0 = t2 0) :
    iface.requestSend path data ts t = iface.requestSend path data ts t2
    ∧ RESTInterface.balancesSend iface ts mock503 = .error 503
    ∧ iface.withdraw_cryptoSend 1 "addr" "BTC" ts mock503 = .error 503 := by
  refine ⟨?_, rfl, rfl⟩
  simp only [RESTInterface.requestSend, h]

/-- C5 amended witness: two transports agreeing on attempt 0 are
indistinguishable to `request`. -/
theorem no_retry_uniform_503_witness :
    RESTInterface.requestSend ⟨"k", []⟩ "/a" none 0 mock503 =
      RESTInterface.requestSend ⟨"k", []⟩ "/a" none 0
        (fun attempt => if attempt == 0 then .httpError 503 else .ok "[]") :=
  (no_retry_uniform_503 ⟨"k", []⟩ "/a" none 0 mock503
    (fun attempt => if attempt == 0 then .httpError 503 else .ok "[]") rfl).1

/-- C6 counterexample: two requests whose inputs differ in exactly one
component — the secret, `0x01` versus `0x01 0x00` — produce *equal*
signatures, because HMAC zero-pads short keys; so "changing any one of
path/timestamp/body/secret changes the signature" is false on the code. -/
theorem signature_secret_collision :
    ([1] : List Nat) ≠ [1, 0]
    ∧ (RESTInterface.request ⟨"k", [1]⟩ "/account/balance" none 1500000000000).signature =
      (RESTInterface.request ⟨"k", [1, 0]⟩ "/account/balance" none 1500000000000).signature := by
  refine ⟨by decide, ?_⟩
  show b64encode (hmacSha512 [1] _) = b64encode (hmacSha512 [1, 0] _)
  simp only [hmacSha512]
  rw [hmacNormKey_pad_collision]

/-- C6 amended: the signature is a deterministic function of path, timestamp,
body and secret, and changing exactly one of path, timestamp, or body (with
the body present on both sides) changes the canonical message being signed;
distinct secrets, however, can produce identical signatures, since HMAC
zero-pads short keys (see the counterexample). -/
theorem signature_deterministic_message_injective
    (p p1 p2 : String) (t t1 t2 : Nat) (b b1 b2 : String)
    (s : List Nat) (d : Option String) :
    spec_signature s p t d = spec_signature s p t d
    ∧ (p1 ≠ p2 → spec_canonicalMessage p1 t (some b) ≠ spec_canonicalMessage p2 t (some b))
    ∧ (p1 ≠ p2 → spec_canonicalMessage p1 t none ≠ spec_canonicalMessage p2 t none)
    ∧ (t1 ≠ t2 → spec_canonicalMessage p t1 (some b) ≠ spec_canonicalMessage p t2 (some b))
    ∧ (t1 ≠ t2 → spec_canonicalMessage p t1 none ≠ spec_canonicalMessage p t2 none)
    ∧ (b1 ≠ b2 → spec_canonicalMessage p t (some b1) ≠ spec_canonicalMessage p t (some b2)) := by
  refine ⟨rfl, ?_, ?_, ?_, ?_, ?_⟩
  · intro hne heq
    exact hne (string_append_right_cancel (string_append_right_cancel
      (string_append_right_cancel (string_append_right_cancel heq))))
  · intro hne heq
    exact hne (string_append_right_cancel (string_append_right_cancel
      (string_append_right_cancel heq)))
  · intro hne heq
    have h1 := string_append_right_cancel (string_append_right_cancel heq)
    have h2 : toString t1 = toString t2 :=
      string_append_left_cancel (r := p ++ "\n") h1
    exact hne (toString_nat_injective h2)
  · intro hne heq
    have h1 := string_append_right_cancel heq
    have h2 : toString t1 = toString t2 :=
      string_append_left_cancel (r := p ++ "\n") h1
    exact hne (toString_nat_injective h2)
  · intro hne heq
    exact hne (string_append_left_cancel
      (r := p ++ "\n" ++ toString t ++ "\n") heq)

/-- C6 amended witness: distinct paths give distinct canonical messages. -/
theorem signature_deterministic_message_injective_witness :
    spec_canonicalMessage "/a" 1 (some "x") ≠ spec_canonicalMessage "/b" 1 (some "x") :=
  (signature_deterministic_message_injective "/p" "/a" "/b" 1 0 0 "x" "" "" [] none).2.1
    (by decide)

/-- C7 counterexample: `"!!!!"` is not valid base64, yet
`RESTInterface.__init__` succeeds on it — `base64.b64decode` silently
discards the invalid characters and returns an empty secret — so "not valid
base64 implies construction fails" is false on the code. -/
theorem init_accepts_invalid_base64 :
    validBase64 "!!!!" = false
    ∧ RESTInterface.init "pub" "!!!!" = .ok ⟨"pub", []⟩ := by
  exact ⟨by decide, rfl⟩

/-- C7 amended: construction decodes the private key immediately — it fails
exactly when the non-strict decoder rejects the key (a leftover partial
group, e.g. the single character `"A"`), propagating the decode error, and
otherwise succeeds at once with the decoded secret, even for keys that are
not valid base64 (characters outside the alphabet are silently discarded);
no decoding is deferred to a later request. -/
theorem init_fails_iff_decode_fails (pub priv : String) :
    (∀ e, b64decode priv = .error e → RESTInterface.init pub priv = .error e)
    ∧ (∀ bs, b64decode priv = .ok bs → RESTInterface.init pub priv = .ok ⟨pub, bs⟩)
    ∧ RESTInterface.init pub "A" =
        .error "Invalid base64-encoded string: number of data characters cannot be 1 more than a multiple of 4" := by
  refine ⟨?_, ?_, rfl⟩
  · intro e h
    unfold RESTInterface.init
    rw [h]
  · intro bs h
    unfold RESTInterface.init
    rw [h]

/-- C7 amended witness: a well-formed key decodes and construction succeeds
with the decoded secret. -/
theorem init_fails_iff_decode_fails_witness :
    RESTInterface.init "p" "AQ==" = .ok ⟨"p", [1]⟩ :=
  (init_fails_iff_decode_fails "p" "AQ==").2.1 [1] rfl

/-- C8: the timestamp is read from the clock once per `request` call; the
header carries that value, the signed payload embeds the same value, and the
whole request depends on the clock only through that single first reading. -/
theorem timestamp_single_computation (iface : RESTInterface) (path : String)
    (data : Option String) (clock clock2 : Nat → Nat) :
    (iface.request_clocked path data clock).headers.timestamp = clock 0
    ∧ (iface.request_clocked path data clock).payload =
        path ++ "\n" ++
          toString ((iface.request_clocked path data clock).headers.timestamp) ++
          "\n" ++ data.getD ""
    ∧ (clock 0 = clock2 0 →
        iface.request_clocked path data clock = iface.request_clocked path data clock2) := by
  refine ⟨rfl, ?_, ?_⟩
  · cases data with
    | none => simp [RESTInterface.request_clocked, RESTInterface.request]
    | some d => rfl
  · intro h
    unfold RESTInterface.request_clocked
    rw [h]

/-- C8 witness: two clocks agreeing on the single reading produce the same
request. -/
theorem timestamp_single_computation_witness :
    RESTInterface.request_clocked ⟨"k", []⟩ "/a" none (fun _ => 5) =
      RESTInterface.request_clocked ⟨"k", []⟩ "/a" none (fun n => 5 + n) :=
  (timestamp_single_computation ⟨"k", []⟩ "/a" none (fun _ => 5) (fun n => 5 + n)).2.2
    rfl

/-- C9: when two or more entries of the response carry the queried currency,
`balance` returns the balance of the first matching entry in list order. -/
theorem balance_duplicate_first (resp : List BalanceEntry) (currency : String)
    (e : BalanceEntry) (rest : List BalanceEntry)
    (hf : resp.filter (fun b => b.currency == currency) = e :: rest)
    (_hrest : rest ≠ []) :
    RESTInterface.balance resp currency = e.balance := by
  simp [RESTInterface.balance, hf]

/-- C9 witness: with two AUD entries the first one's balance is returned. -/
theorem balance_duplicate_first_witness :
    RESTInterface.balance [⟨5, 0, "AUD"⟩, ⟨7, 1, "AUD"⟩] "AUD" = 5 :=
  balance_duplicate_first [⟨5, 0, "AUD"⟩, ⟨7, 1, "AUD"⟩] "AUD" ⟨5, 0, "AUD"⟩
    [⟨7, 1, "AUD"⟩] (by decide) (by decide)

/-- C10: `create_order` builds its body by verbatim interpolation of all six
parameters into the fixed template — no escaping — and consequently an
instrument containing a double quote yields a body that is not valid JSON at
all (hence not a valid JSON object encoding those fields). -/
theorem create_order_unescaped_interpolation :
    (∀ (instrument currency : String) (price volume : Int)
        (order_side order_type : String),
      create_order_data instrument currency price volume order_side order_type =
        "\x7b\"currency\":\"" ++ currency ++ "\",\"instrument\":\"" ++ instrument ++
        "\",\"price\":" ++ toString price ++ ",\"volume\":" ++ toString volume ++
        ",\"orderSide\":\"" ++ order_side ++ "\",\"ordertype\":\"" ++ order_type ++
        "\",\"clientRequestId\":\"NA\"\x7d")
    ∧ jsonValid (create_order_data "B\"TC" "AUD" 5000000000 50000000 "Bid" "Limit") = false := by
  exact ⟨fun _ _ _ _ _ _ => rfl, by decide⟩

end BtcMarkets
